import Mathlib

/-!
Verification development for the facial-recognition identity-matching core.

The embedding index (src/app/faiss_index.py), the decision protocol of the
recognition routes (src/app/routers/recognition.py, src/app/face_service.py)
and the passive liveness scorer (src/app/utils/liveness.py) are translated
into Lean definitions below.  Embedding vectors are modelled as lists of
rationals (the float32 arithmetic of the source is carried out exactly), and
the real-valued liveness arithmetic is modelled over the reals.
-/

/-- An embedding vector: a finite ordered sequence of coordinates. -/
abbrev Vec := List ℚ

/-- Squared Euclidean (L2^2) distance between two vectors, the metric of
faiss.IndexFlatL2 used by src/app/faiss_index.py. -/
def sqDist (u v : Vec) : ℚ := (List.zipWith (fun a b => (a - b) * (a - b)) u v).sum

/-- Error raised by the faiss index when an added vector has the wrong
dimensionality. -/
inductive IndexError
  | dimensionMismatch
  deriving DecidableEq

/-- The state of FaissIndex from src/app/faiss_index.py: the fixed dimension,
the co-indexed sequence of (user_id, vector) pairs in insertion order
(self.index rows together with self.user_ids), and the two persisted
artifacts written by save_index (the faiss binary of row-major vectors, and
the pickled user-id list), each present or absent on disk. -/
structure FaissIndex where
  dimension : ℕ
  entries : List (String × Vec)
  diskVectors : Option (List Vec)
  diskMeta : Option (List String)
  deriving DecidableEq

/-- FaissIndex.add_embedding (src/app/faiss_index.py lines 15-18).
Modelled from the spec: the dimensionality check itself lives in the external
faiss library (IndexFlatL2.add rejects a vector whose length differs from the
index dimension before mutating anything); the spec states that insert fails
with DimensionMismatch when the vector length differs from D.  On success the
wrapper appends the vector row, appends the user id, and save_index persists
both artifacts before returning. -/
def FaissIndex.add_embedding (idx : FaissIndex) (user_id : String) (embedding : Vec) :
    Except IndexError FaissIndex :=
  if embedding.length = idx.dimension then
    let entries := idx.entries ++ [(user_id, embedding)]
    Except.ok { idx with
      entries := entries,
      diskVectors := some (entries.map Prod.snd),
      diskMeta := some (entries.map Prod.fst) }
  else Except.error IndexError.dimensionMismatch

/-- Comparison used to rank index rows in a search: ascending L2^2 distance,
ties broken by the smaller (earlier-inserted) row number. -/
def rowLe (a b : ℕ × ℚ) : Bool := decide (a.2 < b.2 ∨ (a.2 = b.2 ∧ a.1 ≤ b.1))

/-- All index rows ranked for a query.
Modelled from the spec: faiss IndexFlatL2.search performs exact brute-force
scan and returns rows by ascending L2^2 distance to the query, ties broken by
earliest insertion (row) order.  Each ranked element is (row number, distance). -/
def FaissIndex.rankedRows (idx : FaissIndex) (query : Vec) : List (ℕ × ℚ) :=
  ((idx.entries.map (fun p => sqDist query p.2)).enum).mergeSort rowLe

/-- FaissIndex.search (src/app/faiss_index.py lines 20-31): returns [] when
the index holds zero entries; otherwise takes the k best-ranked rows and maps
each surviving row number to its user id, dropping any row number outside the
user-id list (the idx >= 0 and idx < len(self.user_ids) guard). -/
def FaissIndex.search (idx : FaissIndex) (embedding : Vec) (k : ℕ) : List (String × ℚ) :=
  if idx.entries.length = 0 then []
  else
    ((idx.rankedRows embedding).take k).filterMap
      (fun r => ((idx.entries.map Prod.fst)[r.1]?).map (fun u => (u, r.2)))

/-- The on-disk situation seen by FaissIndex.load_index: the faiss vector
blob at index_path, and the pickled user-id list at index_path.meta, each
present (with its content) or absent. -/
structure DiskState where
  vectorBlob : Option (List Vec)
  metaBlob : Option (List String)

/-- Error escaping load_index: open of the .meta file raises
FileNotFoundError when that file is missing. -/
inductive LoadError
  | metaFileNotFound
  deriving DecidableEq

/-- FaissIndex.load_index (src/app/faiss_index.py lines 38-42): when the
vector blob exists it is read and the meta file is opened (raising when the
meta file is absent); when the vector blob does not exist nothing is loaded
and the current in-memory state (freshly constructed empty) is kept. -/
def load_index (disk : DiskState) (current : List Vec × List String) :
    Except LoadError (List Vec × List String) :=
  match disk.vectorBlob with
  | some vecs =>
    match disk.metaBlob with
    | some ids => Except.ok (vecs, ids)
    | none => Except.error LoadError.metaFileNotFound
  | none => Except.ok current

/-- The engine state a request operates on: the relational registry of
enrolled user ids (the FaceRecord table queried by the routes) and the
process-wide faiss index. -/
structure EngineState where
  registry : List String
  index : FaissIndex
  deriving DecidableEq

/-- settings.SIMILARITY_THRESHOLD default from src/app/config.py. -/
def SIMILARITY_THRESHOLD : ℚ := 6 / 10

/-- FaceService.enroll_face (src/app/face_service.py lines 55-62): extracts
the embedding (False when no face), then adds it to the index.  The
dimensionality error of the index propagates as an exception. -/
def enroll_face (extract : String → Option Vec) (idx : FaissIndex)
    (user_id image : String) : Except IndexError (Bool × FaissIndex) :=
  match extract image with
  | none => Except.ok (false, idx)
  | some e => (idx.add_embedding user_id e).map (fun idx2 => (true, idx2))

/-- FaceService.verify_face (src/app/face_service.py lines 64-81): returns
(verified, confidence, liveness_passed); verified requires the top-1 match to
carry the claimed user id and confidence 1/(1+distance) at least the
similarity threshold. -/
def fs_verify_face (extract : String → Option Vec) (livenessOf : String → Bool)
    (threshold : ℚ) (idx : FaissIndex) (user_id image : String) : Bool × ℚ × Bool :=
  match extract image with
  | none => (false, 0, false)
  | some e =>
    match idx.search e 1 with
    | [] => (false, 0, false)
    | (matched, dist) :: _ =>
      let confidence := 1 / (1 + dist)
      (decide (matched = user_id) && decide (threshold ≤ confidence),
        confidence, livenessOf image)

/-- FaceService.identify_face (src/app/face_service.py lines 83-98): None
when no embedding, None when the search is empty, and the top-1 pair
(user_id, confidence) only when confidence reaches the threshold. -/
def identify_face (extract : String → Option Vec) (threshold : ℚ)
    (idx : FaissIndex) (image : String) : Option (String × ℚ) :=
  match extract image with
  | none => none
  | some e =>
    match idx.search e 1 with
    | [] => none
    | (user_id, dist) :: _ =>
      let confidence := 1 / (1 + dist)
      if threshold ≤ confidence then some (user_id, confidence) else none

/-- Terminal outcomes of the verify_face route handler
(src/app/routers/recognition.py lines 79-167), one constructor per distinct
response or raise site. -/
inductive VerifyOutcome
  | noFaceDetected
  | verifiedExisting (confidence : ℚ) (livenessPassed : Bool)
  | fraudAlert (matched : String)
  | userExistsDifferentFace
  | enrollFailed
  | indexError
  | enrolledNew (livenessPassed : Bool)
  deriving DecidableEq

/-- verify_face route handler (src/app/routers/recognition.py lines 79-167):
extract the embedding (400 when none), compute liveness, search top-1; on a
non-empty result with confidence at least the threshold either verify (same
user) or raise the fraud alert (different user); otherwise fall through to
the registry check: a registered claimed id is rejected with the 403
"already exists with a different face", an unregistered one is enrolled
(re-extracting the same image) and recorded in the registry. -/
def verify_face (extract : String → Option Vec) (livenessOf : String → Bool)
    (threshold : ℚ) (st : EngineState) (user_id image : String) :
    VerifyOutcome × EngineState :=
  match extract image with
  | none => (VerifyOutcome.noFaceDetected, st)
  | some e =>
    let lp := livenessOf image
    let fallthrough : VerifyOutcome × EngineState :=
      if user_id ∈ st.registry then (VerifyOutcome.userExistsDifferentFace, st)
      else
        match enroll_face extract st.index user_id image with
        | Except.error _ => (VerifyOutcome.indexError, st)
        | Except.ok (false, _) => (VerifyOutcome.enrollFailed, st)
        | Except.ok (true, idx2) =>
          (VerifyOutcome.enrolledNew lp,
            { registry := st.registry ++ [user_id], index := idx2 })
    match st.index.search e 1 with
    | (matched, dist) :: _ =>
      let confidence := 1 / (1 + dist)
      if threshold ≤ confidence then
        if matched = user_id then (VerifyOutcome.verifiedExisting confidence lp, st)
        else (VerifyOutcome.fraudAlert matched, st)
      else fallthrough
    | [] => fallthrough

/-- Terminal outcomes of the verify_face_base64 route handler
(src/app/routers/recognition.py lines 169-221). -/
inductive B64Outcome
  | noFaceDetected
  | indexError
  | enrolledNew (livenessPassed : Bool)
  | verificationFailed (confidence : ℚ)
  | verified (confidence : ℚ) (livenessPassed : Bool)
  deriving DecidableEq

/-- verify_face_base64 route handler (src/app/routers/recognition.py lines
169-221): when the claimed user id is not in the registry the face is
auto-enrolled with no index search beforehand; when it is registered,
FaceService.verify_face decides between 200 and the 401 failure. -/
def verify_face_base64 (extract : String → Option Vec) (livenessOf : String → Bool)
    (threshold : ℚ) (st : EngineState) (user_id image : String) :
    B64Outcome × EngineState :=
  if user_id ∈ st.registry then
    match fs_verify_face extract livenessOf threshold st.index user_id image with
    | (v, c, lp) =>
      if v then (B64Outcome.verified c lp, st)
      else (B64Outcome.verificationFailed c, st)
  else
    match enroll_face extract st.index user_id image with
    | Except.error _ => (B64Outcome.indexError, st)
    | Except.ok (false, _) => (B64Outcome.noFaceDetected, st)
    | Except.ok (true, idx2) =>
      (B64Outcome.enrolledNew (livenessOf image),
        { registry := st.registry ++ [user_id], index := idx2 })

/-- An input frame for the liveness scorer together with the raw measurements
that the external cv2 and numpy collaborators produce on it in
src/app/utils/liveness.py: the grayscale shape (rows, cols), the variance of
the Laplacian of the grayscale frame (computed twice in the source, by
analyze_texture and analyze_sharpness, with identical value), the normalized
hue and saturation histograms (180 and 256 bins, each summing to 1 for a
non-empty frame), and the high-frequency energy ratio of the FFT magnitude. -/
structure Frame where
  rows : ℕ
  cols : ℕ
  textureVariance : ℝ
  hHist : List ℝ
  sHist : List ℝ
  freqRaw : ℝ
  sharpnessVariance : ℝ

/-- numpy .size of a BGR frame: rows * cols * 3 channels. -/
def Frame.size (f : Frame) : ℕ := f.rows * f.cols * 3

/-- The entropy expression of analyze_color_diversity
(src/app/utils/liveness.py lines 98-100): -sum of p * log2(p + 1e-10) over
the histogram bins. -/
noncomputable def entropyOf (hist : List ℝ) : ℝ :=
  -((hist.map (fun p => p * Real.logb 2 (p + 1e-10))).sum)

/-- analyze_texture (src/app/utils/liveness.py lines 58-79): frames whose
grayscale shape is smaller than 3x3 score a neutral 0.5; otherwise the
Laplacian variance is normalized by 5000 and capped at 1. -/
noncomputable def analyze_texture (f : Frame) : ℝ :=
  if f.rows < 3 ∨ f.cols < 3 then 0.5
  else min (f.textureVariance / 5000) 1

/-- analyze_color_diversity (src/app/utils/liveness.py lines 82-106): the hue
and saturation entropies normalized by 7 and 8, each capped at 1, averaged. -/
noncomputable def analyze_color_diversity (f : Frame) : ℝ :=
  (min (entropyOf f.hHist / 7) 1 + min (entropyOf f.sHist / 8) 1) / 2

/-- analyze_frequency (src/app/utils/liveness.py lines 109-140): the
high-frequency ratio mapped through (ratio - 0.1) / 0.4 and clamped to
[0, 1]. -/
noncomputable def analyze_frequency (f : Frame) : ℝ :=
  min (max ((f.freqRaw - 0.1) / 0.4) 0) 1

/-- analyze_sharpness (src/app/utils/liveness.py lines 143-156): Laplacian
variance normalized by 500 and capped at 1. -/
noncomputable def analyze_sharpness (f : Frame) : ℝ :=
  min (f.sharpnessVariance / 500) 1

/-- calculate_liveness_score (src/app/utils/liveness.py lines 26-55): the
weighted sum of the four sub-scores with weights 0.3, 0.25, 0.25, 0.2. -/
noncomputable def calculate_liveness_score (f : Frame) : ℝ :=
  0.3 * analyze_texture f + 0.25 * analyze_color_diversity f
    + 0.25 * analyze_frequency f + 0.2 * analyze_sharpness f

/-- check_liveness (src/app/utils/liveness.py lines 5-23): False for an
absent (None) or empty frame, else the comparison score >= threshold.  The
source default for the threshold argument is 0.5. -/
def check_liveness (image : Option Frame) (threshold : ℝ) : Prop :=
  match image with
  | none => False
  | some f => if f.size = 0 then False else threshold ≤ calculate_liveness_score f

/-- A normalized histogram as produced by the source for a non-empty frame:
nonnegative bins summing to 1. -/
def validHist (hist : List ℝ) : Prop := (∀ p ∈ hist, 0 ≤ p) ∧ hist.sum = 1

/-! ### Helper lemmas about the index -/

lemma sqDist_self (v : Vec) : sqDist v v = 0 := by
  induction v with
  | nil => rfl
  | cons a t ih =>
    simp only [sqDist, List.zipWith_cons_cons, List.sum_cons] at *
    simp [ih]

lemma sqDist_nonneg (u v : Vec) : 0 ≤ sqDist u v := by
  induction u generalizing v with
  | nil => simp [sqDist]
  | cons a t ih =>
    cases v with
    | nil => simp [sqDist]
    | cons b s =>
      simp only [sqDist, List.zipWith_cons_cons, List.sum_cons]
      exact add_nonneg (mul_self_nonneg _) (ih s)

lemma rowLe_trans (a b c : ℕ × ℚ) (h1 : rowLe a b = true) (h2 : rowLe b c = true) :
    rowLe a c = true := by
  simp only [rowLe, decide_eq_true_eq] at *
  rcases h1 with h1 | ⟨h1e, h1i⟩ <;> rcases h2 with h2 | ⟨h2e, h2i⟩
  · exact Or.inl (lt_trans h1 h2)
  · exact Or.inl (h2e ▸ h1)
  · exact Or.inl (h1e ▸ h2)
  · exact Or.inr ⟨h1e.trans h2e, le_trans h1i h2i⟩

lemma rowLe_total (a b : ℕ × ℚ) : (rowLe a b || rowLe b a) = true := by
  simp only [rowLe, Bool.or_eq_true, decide_eq_true_eq]
  rcases lt_trichotomy a.2 b.2 with h | h | h
  · exact Or.inl (Or.inl h)
  · rcases le_total a.1 b.1 with hi | hi
    · exact Or.inl (Or.inr ⟨h, hi⟩)
    · exact Or.inr (Or.inr ⟨h.symm, hi⟩)
  · exact Or.inr (Or.inl h)

lemma rankedRows_perm (idx : FaissIndex) (q : Vec) :
    (idx.rankedRows q).Perm ((idx.entries.map (fun p => sqDist q p.2)).enum) :=
  List.mergeSort_perm _ _

lemma rankedRows_length (idx : FaissIndex) (q : Vec) :
    (idx.rankedRows q).length = idx.entries.length := by
  rw [(rankedRows_perm idx q).length_eq, List.enum_length, List.length_map]

lemma rankedRows_sorted (idx : FaissIndex) (q : Vec) :
    List.Pairwise (fun a b => rowLe a b = true) (idx.rankedRows q) :=
  List.sorted_mergeSort rowLe_trans rowLe_total _

lemma rankedRows_nodup_fst (idx : FaissIndex) (q : Vec) :
    ((idx.rankedRows q).map Prod.fst).Nodup := by
  have h := (rankedRows_perm idx q).map Prod.fst
  rw [List.enum_map_fst] at h
  exact (List.nodup_range _).perm h.symm

lemma rankedRows_pairwise_strict (idx : FaissIndex) (q : Vec) :
    List.Pairwise (fun a b : ℕ × ℚ => a.2 < b.2 ∨ (a.2 = b.2 ∧ a.1 < b.1))
      (idx.rankedRows q) := by
  have hs := rankedRows_sorted idx q
  have hn : List.Pairwise (fun a b : ℕ × ℚ => a.1 ≠ b.1) (idx.rankedRows q) := by
    have h := rankedRows_nodup_fst idx q
    rw [List.Nodup, List.pairwise_map] at h
    exact h
  refine (hs.and hn).imp ?_
  rintro a b ⟨hle, hne⟩
  simp only [rowLe, decide_eq_true_eq] at hle
  rcases hle with h | ⟨he, hi⟩
  · exact Or.inl h
  · exact Or.inr ⟨he, lt_of_le_of_ne hi hne⟩

lemma rankedRows_mem (idx : FaissIndex) (q : Vec) (a : ℕ × ℚ) :
    a ∈ idx.rankedRows q ↔
      (idx.entries.map (fun p => sqDist q p.2))[a.1]? = some a.2 := by
  rw [(rankedRows_perm idx q).mem_iff, List.mem_enum_iff_getElem?]

/-! ### C3 -/

/-- C3: for every query and every k, search returns at most min(k, index
size) results, the empty sequence when the index holds zero entries, the
ranked rows it draws from are strictly ordered lexicographically by
(distance, insertion order) - so ties in distance are broken by earliest
insertion order - and the returned results carry non-decreasing L2-squared
distances. -/
theorem search_spec (idx : FaissIndex) (q : Vec) (k : ℕ) :
    (idx.search q k).length ≤ min k idx.entries.length ∧
    (idx.entries = [] → idx.search q k = []) ∧
    List.Pairwise (fun a b : ℕ × ℚ => a.2 < b.2 ∨ (a.2 = b.2 ∧ a.1 < b.1))
      ((idx.rankedRows q).take k) ∧
    List.Pairwise (fun a b : String × ℚ => a.2 ≤ b.2) (idx.search q k) := by
  have htake : List.Pairwise
      (fun a b : ℕ × ℚ => a.2 < b.2 ∨ (a.2 = b.2 ∧ a.1 < b.1))
      ((idx.rankedRows q).take k) :=
    List.Pairwise.sublist (List.take_sublist k _) (rankedRows_pairwise_strict idx q)
  refine ⟨?_, ?_, htake, ?_⟩
  · unfold FaissIndex.search
    split
    · simp
    · calc (((idx.rankedRows q).take k).filterMap _).length
          ≤ ((idx.rankedRows q).take k).length := List.length_filterMap_le _ _
        _ = min k (idx.rankedRows q).length := List.length_take k _
        _ = min k idx.entries.length := by rw [rankedRows_length]
  · intro h
    simp [FaissIndex.search, h]
  · unfold FaissIndex.search
    split
    · simp
    · rw [List.pairwise_filterMap]
      refine htake.imp ?_
      intro a b hab
      intro x hx y hy
      rw [Option.mem_map] at hx hy
      obtain ⟨u, hu, rfl⟩ := hx
      obtain ⟨w, hw, rfl⟩ := hy
      rcases hab with h | ⟨he, hlt⟩
      · exact le_of_lt h
      · exact le_of_eq he

/-! ### Concrete fixtures -/

/-- A one-dimensional index holding alice with embedding [0]. -/
def idxA : FaissIndex :=
  { dimension := 1, entries := [("alice", [0])],
    diskVectors := some [[0]], diskMeta := some ["alice"] }

/-- A one-dimensional index holding alice with embedding [5]. -/
def idxFar : FaissIndex :=
  { dimension := 1, entries := [("alice", [5])],
    diskVectors := some [[5]], diskMeta := some ["alice"] }

/-- idxFar after enrolling bob with embedding [0]. -/
def idxFarBob : FaissIndex :=
  { dimension := 1, entries := [("alice", [5]), ("bob", [0])],
    diskVectors := some [[5], [0]], diskMeta := some ["alice", "bob"] }

/-- idxA after enrolling bob with the duplicate embedding [0]. -/
def idxADup : FaissIndex :=
  { dimension := 1, entries := [("alice", [0]), ("bob", [0])],
    diskVectors := some [[0], [0]], diskMeta := some ["alice", "bob"] }

/-! ### C2 -/

/-- Every ranked row is backed by a stored entry at its row number, carrying
the L2^2 distance from the query to that entry. -/
lemma rankedRows_row (idx : FaissIndex) (q : Vec) (r : ℕ × ℚ)
    (hr : r ∈ idx.rankedRows q) :
    ∃ p, idx.entries[r.1]? = some p ∧ sqDist q p.2 = r.2 := by
  rw [rankedRows_mem, List.getElem?_map, Option.map_eq_some'] at hr
  exact hr

/-- sqDist on one-coordinate vectors. -/
lemma sqDist_single (a b : ℚ) : sqDist [a] [b] = (a - b) * (a - b) := by
  simp [sqDist]

/-- If the first stored entry lies at L2^2 distance 0 from the query, the
top-1 search returns that entry (row 0 wins every tie). -/
lemma search_first_entry_zero (J : FaissIndex) (a0 : String) (e0 : Vec)
    (rest : List (String × Vec)) (q : Vec)
    (hJ : J.entries = (a0, e0) :: rest) (h0 : sqDist q e0 = 0) :
    J.search q 1 = [(a0, 0)] := by
  have hmem : ((0 : ℕ), (0 : ℚ)) ∈ J.rankedRows q := by
    rw [rankedRows_mem, hJ]
    simp [h0]
  have hlenr : (J.rankedRows q).length = rest.length + 1 := by
    rw [rankedRows_length, hJ]
    simp
  obtain ⟨h, t, hht⟩ : ∃ h t, J.rankedRows q = h :: t := by
    cases hcasel : J.rankedRows q with
    | nil => rw [hcasel] at hlenr; simp at hlenr
    | cons a l => exact ⟨a, l, rfl⟩
  have hhead : h = ((0 : ℕ), (0 : ℚ)) := by
    cases List.mem_cons.mp (hht ▸ hmem) with
    | inl h1 => exact h1.symm
    | inr h2 =>
      have hp := rankedRows_pairwise_strict J q
      rw [hht] at hp
      have hrel := (List.pairwise_cons.mp hp).1 _ h2
      simp only at hrel
      have hh : h ∈ J.rankedRows q := by rw [hht]; exact List.mem_cons_self _ _
      obtain ⟨p, hpe, hpd⟩ := rankedRows_row J q h hh
      have hnn : 0 ≤ h.2 := hpd ▸ sqDist_nonneg q p.2
      rcases hrel with hlt | ⟨he0, hilt⟩
      · exact absurd hlt (not_lt.mpr hnn)
      · exact absurd hilt (Nat.not_lt_zero _)
  have hid : J.entries[(0 : ℕ)]? = some (a0, e0) := by
    rw [hJ]
    simp
  unfold FaissIndex.search
  rw [if_neg (by rw [hJ]; simp)]
  rw [hht, hhead]
  simp [List.filterMap_cons, hid]

/-- For a single-entry index, the top-1 search returns that entry with its
distance to the query. -/
lemma search_single (J : FaissIndex) (a0 : String) (e0 : Vec) (q : Vec)
    (hJ : J.entries = [(a0, e0)]) :
    J.search q 1 = [(a0, sqDist q e0)] := by
  have hperm := rankedRows_perm J q
  rw [hJ] at hperm
  simp only [List.map_cons, List.map_nil] at hperm
  have hsing : J.rankedRows q = [((0 : ℕ), sqDist q e0)] := by
    rw [← List.perm_singleton]
    exact hperm
  have hid : J.entries[(0 : ℕ)]? = some (a0, e0) := by
    rw [hJ]
    simp
  unfold FaissIndex.search
  rw [if_neg (by rw [hJ]; simp)]
  rw [hsing]
  simp [List.filterMap_cons, hid]

/-- Key lemma for C2: if the entries of an index are some prefix followed by
the pair (id, e), and no prefix entry lies at L2^2 distance 0 from e, then
the top-1 search for e returns exactly [(id, 0)]. -/
lemma search_appended (J : FaissIndex) (pre : List (String × Vec)) (id : String) (e : Vec)
    (hJ : J.entries = pre ++ [(id, e)])
    (hfresh : ∀ p ∈ pre, sqDist e p.2 ≠ 0) :
    J.search e 1 = [(id, 0)] := by
  have hdists : J.entries.map (fun p => sqDist e p.2)
      = (pre.map (fun p => sqDist e p.2)) ++ [0] := by
    rw [hJ, List.map_append]
    simp [sqDist_self]
  have hlenpre : (pre.map (fun p => sqDist e p.2)).length = pre.length := by simp
  have hmem : (pre.length, (0 : ℚ)) ∈ J.rankedRows e := by
    rw [rankedRows_mem, hdists, ← hlenpre]
    exact List.getElem?_concat_length _ _
  have hrow : ∀ r ∈ J.rankedRows e, 0 ≤ r.2 ∧ (r.2 = 0 → r.1 = pre.length) := by
    intro r hr
    rw [rankedRows_mem, hdists] at hr
    by_cases hi : r.1 < pre.length
    · rw [List.getElem?_append, hlenpre, if_pos hi, List.getElem?_map,
        Option.map_eq_some'] at hr
      obtain ⟨p, hp, hfp⟩ := hr
      obtain ⟨hplt, hpe⟩ := List.getElem?_eq_some_iff.mp hp
      have hpmem : p ∈ pre := hpe ▸ List.getElem_mem hplt
      exact ⟨hfp ▸ sqDist_nonneg e p.2,
        fun h0 => absurd (hfp.trans h0) (hfresh p hpmem)⟩
    · have hlen : r.1 < pre.length + 1 := by
        have h := (List.getElem?_eq_some_iff.mp hr).1
        simpa [hlenpre] using h
      have hie : r.1 = pre.length := by omega
      rw [hie, ← hlenpre, List.getElem?_concat_length] at hr
      injection hr with hr2
      exact ⟨le_of_eq hr2, fun _ => hie⟩
  have hlenr : (J.rankedRows e).length = pre.length + 1 := by
    rw [rankedRows_length, hJ, List.length_append]
    simp
  obtain ⟨h, t, hht⟩ : ∃ h t, J.rankedRows e = h :: t := by
    cases hcasel : J.rankedRows e with
    | nil => rw [hcasel] at hlenr; simp at hlenr
    | cons a l => exact ⟨a, l, rfl⟩
  have hhead : h = (pre.length, (0 : ℚ)) := by
    cases List.mem_cons.mp (hht ▸ hmem) with
    | inl h1 => exact h1.symm
    | inr h2 =>
      have hp := rankedRows_pairwise_strict J e
      rw [hht] at hp
      have hrel := (List.pairwise_cons.mp hp).1 _ h2
      simp only at hrel
      have hh : h ∈ J.rankedRows e := by rw [hht]; exact List.mem_cons_self _ _
      obtain ⟨hnn, hz⟩ := hrow h hh
      rcases hrel with hlt | ⟨he0, hilt⟩
      · exact absurd hlt (not_lt.mpr hnn)
      · exact absurd (hz he0) (Nat.ne_of_lt hilt)
  have hid : J.entries[pre.length]? = some (id, e) := by
    rw [hJ]
    exact List.getElem?_concat_length _ _
  unfold FaissIndex.search
  rw [if_neg (by rw [hJ]; simp)]
  rw [hht, hhead]
  simp [List.filterMap_cons, hid]

/-- C2 counterexample: with alice already enrolled under the exact embedding
[0], inserting ("bob", [0]) and then searching for [0] returns alice as the
top-1 identity (the earlier insertion wins the distance-0 tie), not the just
inserted bob, refuting "returns id as the top-1 result" as universally
stated. -/
theorem insert_search_returns_earlier_duplicate :
    idxA.add_embedding "bob" [0] = Except.ok idxADup ∧
    idxADup.search [0] 1 = [("alice", 0)] :=
  ⟨rfl, search_first_entry_zero idxADup "alice" [0] [("bob", [0])] [0] rfl
    (sqDist_self [0])⟩

/-- C2 (amended): searching immediately after a successful insert of (id, e),
with the index otherwise unchanged, returns distance 0 at the top, and the
returned identity is id provided no earlier entry stores a vector at L2^2
distance 0 from e (otherwise the earliest such identity is returned, as ties
are broken by earliest insertion order). -/
theorem insert_then_search (idx : FaissIndex) (id : String) (e : Vec)
    (idx2 : FaissIndex) (hok : idx.add_embedding id e = Except.ok idx2)
    (hfresh : ∀ p ∈ idx.entries, sqDist e p.2 ≠ 0) :
    idx2.search e 1 = [(id, 0)] := by
  unfold FaissIndex.add_embedding at hok
  split at hok
  · injection hok with h2
    subst h2
    exact search_appended _ idx.entries id e rfl hfresh
  · exact absurd hok (by simp)

/-- C2 witness: inserting bob with [0] into an index whose only entry is at
distance 25 from [0], then searching [0], returns bob at distance 0. -/
theorem insert_then_search_witness :
    idxFar.add_embedding "bob" [0] = Except.ok idxFarBob ∧
    (∀ p ∈ idxFar.entries, sqDist [0] p.2 ≠ 0) ∧
    idxFarBob.search [0] 1 = [("bob", 0)] :=
  ⟨by rfl,
    by
      intro p hp
      simp only [idxFar, List.mem_singleton] at hp
      subst hp
      rw [sqDist_single]
      norm_num,
    insert_then_search idxFar "bob" [0] idxFarBob (by rfl)
      (by
        intro p hp
        simp only [idxFar, List.mem_singleton] at hp
        subst hp
        rw [sqDist_single]
        norm_num)⟩

/-! ### C6 -/

/-- C6: adding a vector whose length differs from the dimension fixed at
index construction fails with DimensionMismatch, and no updated index state
is produced - nothing is appended and nothing is persisted. -/
theorem add_embedding_dimension_mismatch (idx : FaissIndex) (uid : String) (v : Vec)
    (h : v.length ≠ idx.dimension) :
    idx.add_embedding uid v = Except.error IndexError.dimensionMismatch := by
  unfold FaissIndex.add_embedding
  rw [if_neg h]

/-- C6 witness: a 2-dimensional vector is rejected by the 1-dimensional
index. -/
theorem add_embedding_dimension_mismatch_witness :
    ([(0 : ℚ), 0].length ≠ idxA.dimension) ∧
    idxA.add_embedding "bob" [0, 0] = Except.error IndexError.dimensionMismatch :=
  ⟨by decide, add_embedding_dimension_mismatch idxA "bob" [0, 0] (by decide)⟩

/-! ### C7 -/

/-- C7 counterexample: with only the meta (identity-list) artifact present
and the vector blob absent, load_index silently keeps the freshly constructed
empty state instead of failing loudly. -/
theorem load_index_missing_counterpart_silent :
    load_index { vectorBlob := none, metaBlob := some ["alice"] } ([], [])
      = Except.ok ([], []) := rfl

/-- C7 (amended): when the vector blob exists without the identity-list
artifact the load fails loudly, but when the identity-list artifact exists
without the vector blob the load silently keeps the current (empty)
in-memory state. -/
theorem load_index_one_artifact (vecs : List Vec) (meta : Option (List String))
    (cur : List Vec × List String) :
    load_index { vectorBlob := some vecs, metaBlob := none } cur
        = Except.error LoadError.metaFileNotFound ∧
    load_index { vectorBlob := none, metaBlob := meta } cur = Except.ok cur :=
  ⟨rfl, rfl⟩

/-! ### C1 -/

/-- Constant extractor returning the embedding [0] for every image. -/
def extractE0 : String → Option Vec := fun _ => some [0]

/-- Engine state with alice registered and enrolled under embedding [0]. -/
def stA : EngineState := { registry := ["alice"], index := idxA }

/-- C1 code-bug evidence: alice is enrolled with embedding [0] and a request
claims bob with an embedding at L2^2 distance 0 from it, so the best-match
confidence is 1 >= 0.6; the fraud invariant demands a FraudAlert rejection,
yet the verify-base64 path runs no fraud search for an unregistered claimed
id: it accepts the request and enrolls bob, binding alice's face to a second
identity. -/
theorem fraud_invariant_violated_on_base64_path :
    SIMILARITY_THRESHOLD ≤ 1 / (1 + sqDist [0] [0]) ∧
    verify_face_base64 extractE0 (fun _ => true) SIMILARITY_THRESHOLD stA "bob" "img"
      = (B64Outcome.enrolledNew true,
         { registry := ["alice", "bob"], index := idxADup }) :=
  ⟨by rw [sqDist_self]; norm_num [SIMILARITY_THRESHOLD], by rfl⟩

/-! ### C4 -/

/-- C4: with a non-empty index whose top-1 confidence falls below the
similarity threshold, the verify route rejects a registered claimed id with
the 403 "user already exists with a different face" and accepts an
unregistered claimed id as a brand-new enrollment, appending its embedding
to the index and its id to the registry. -/
theorem below_threshold_decision (extract : String → Option Vec)
    (livenessOf : String → Bool) (threshold : ℚ) (st : EngineState)
    (uid img : String) (e : Vec) (m : String) (d : ℚ) (rest : List (String × ℚ))
    (hx : extract img = some e)
    (hs : st.index.search e 1 = (m, d) :: rest)
    (hc : 1 / (1 + d) < threshold)
    (hd : e.length = st.index.dimension) :
    (uid ∈ st.registry →
      verify_face extract livenessOf threshold st uid img
        = (VerifyOutcome.userExistsDifferentFace, st)) ∧
    (uid ∉ st.registry →
      (verify_face extract livenessOf threshold st uid img).1
          = VerifyOutcome.enrolledNew (livenessOf img) ∧
      (verify_face extract livenessOf threshold st uid img).2.registry
          = st.registry ++ [uid] ∧
      (verify_face extract livenessOf threshold st uid img).2.index.entries
          = st.index.entries ++ [(uid, e)]) := by
  have hcn : ¬ threshold ≤ (1 + d)⁻¹ := by
    rw [← one_div]
    exact not_le.mpr hc
  constructor
  · intro hin
    simp [verify_face, hx, hs, hcn, hin]
  · intro hout
    simp [verify_face, hx, hs, hcn, hout, enroll_face, FaissIndex.add_embedding, hd,
      Except.map]

/-- C4 witness: the single enrolled face [5] is at distance 25 from the
query [0], confidence 1/26 < 0.6, and the registered claimed id alice is
rejected with the 403 "user already exists with a different face". -/
theorem below_threshold_decision_witness :
    idxFar.search [0] 1 = [("alice", 25)] ∧
    (1 : ℚ) / (1 + 25) < SIMILARITY_THRESHOLD ∧
    verify_face (fun _ => some [0]) (fun _ => true) SIMILARITY_THRESHOLD
        { registry := ["alice"], index := idxFar } "alice" "img"
      = (VerifyOutcome.userExistsDifferentFace,
         { registry := ["alice"], index := idxFar }) := by
  have hs : idxFar.search [0] 1 = [("alice", 25)] := by
    rw [search_single idxFar "alice" [5] [0] rfl, sqDist_single]
    norm_num
  refine ⟨hs, by norm_num [SIMILARITY_THRESHOLD], ?_⟩
  exact (below_threshold_decision _ _ _ _ _ _ [0] "alice" 25 [] rfl hs
    (by norm_num [SIMILARITY_THRESHOLD]) rfl).1 (by simp)

/-! ### C5 -/

/-- The empty one-dimensional index as freshly constructed. -/
def idxEmpty : FaissIndex :=
  { dimension := 1, entries := [], diskVectors := none, diskMeta := none }

/-- C5 counterexample: with an empty index and the claimed id alice already
registered, the verify route rejects with exactly the same 403 "user already
exists with a different face" outcome that the below-threshold FaceMismatch
branch produces (the single raise site of recognition.py lines 141-146); the
code has no distinct DataInconsistency error to return. -/
theorem empty_index_rejection_is_face_mismatch :
    (verify_face extractE0 (fun _ => true) SIMILARITY_THRESHOLD
        { registry := ["alice"], index := idxEmpty } "alice" "img").1
      = VerifyOutcome.userExistsDifferentFace := by rfl

/-- C5 (amended): when the index search yields no result because the index
is empty, a registered claimed id is rejected (with the same 403 "user
already exists with a different face" rejection used for FaceMismatch), and
an unregistered claimed id proceeds as a new enrollment. -/
theorem empty_index_decision (extract : String → Option Vec)
    (livenessOf : String → Bool) (threshold : ℚ) (st : EngineState)
    (uid img : String) (e : Vec)
    (hx : extract img = some e)
    (he : st.index.entries = [])
    (hd : e.length = st.index.dimension) :
    (uid ∈ st.registry →
      verify_face extract livenessOf threshold st uid img
        = (VerifyOutcome.userExistsDifferentFace, st)) ∧
    (uid ∉ st.registry →
      (verify_face extract livenessOf threshold st uid img).1
          = VerifyOutcome.enrolledNew (livenessOf img) ∧
      (verify_face extract livenessOf threshold st uid img).2.registry
          = st.registry ++ [uid] ∧
      (verify_face extract livenessOf threshold st uid img).2.index.entries
          = st.index.entries ++ [(uid, e)]) := by
  have hs : st.index.search e 1 = [] := by simp [FaissIndex.search, he]
  constructor
  · intro hin
    simp [verify_face, hx, hs, hin]
  · intro hout
    simp [verify_face, hx, hs, hout, enroll_face, FaissIndex.add_embedding, hd,
      Except.map]

/-- C5 witness: the empty index with alice registered rejects alice's
request with the 403 "user already exists with a different face". -/
theorem empty_index_decision_witness :
    extractE0 "img" = some [0] ∧
    idxEmpty.entries = [] ∧
    verify_face extractE0 (fun _ => true) SIMILARITY_THRESHOLD
        { registry := ["alice"], index := idxEmpty } "alice" "img"
      = (VerifyOutcome.userExistsDifferentFace,
         { registry := ["alice"], index := idxEmpty }) :=
  ⟨rfl, rfl,
    (empty_index_decision extractE0 (fun _ => true) SIMILARITY_THRESHOLD
      { registry := ["alice"], index := idxEmpty } "alice" "img" [0]
      rfl rfl rfl).1 (by simp)⟩

/-! ### C10 -/

/-- C10: identify_face reports a pair (user_id, confidence) only when an
embedding was extracted, the index search produced a top-1 result, and the
confidence 1/(1+distance) reaches the similarity threshold; with no
embedding, an empty index, or a top-1 confidence below the threshold it
returns none - identification never reports an identity whose confidence
is below the threshold. -/
theorem identify_face_spec (extract : String → Option Vec) (threshold : ℚ)
    (idx : FaissIndex) (img : String) :
    (∀ u c, identify_face extract threshold idx img = some (u, c) →
      ∃ e d rest, extract img = some e ∧ idx.search e 1 = (u, d) :: rest ∧
        c = 1 / (1 + d) ∧ threshold ≤ c ∧ idx.entries ≠ []) ∧
    (extract img = none → identify_face extract threshold idx img = none) ∧
    (idx.entries = [] → identify_face extract threshold idx img = none) ∧
    (∀ e m d rest, extract img = some e → idx.search e 1 = (m, d) :: rest →
      1 / (1 + d) < threshold → identify_face extract threshold idx img = none) := by
  refine ⟨?_, ?_, ?_, ?_⟩
  · intro u c h
    cases hx : extract img with
    | none => simp [identify_face, hx] at h
    | some e =>
      cases hsr : idx.search e 1 with
      | nil => simp [identify_face, hx, hsr] at h
      | cons p rest =>
        obtain ⟨m, d⟩ := p
        simp only [identify_face, hx, hsr] at h
        by_cases hth : threshold ≤ 1 / (1 + d)
        · rw [if_pos hth] at h
          injection h with h2
          obtain ⟨hm, hc2⟩ := Prod.mk.inj h2
          subst hm
          subst hc2
          exact ⟨e, d, rest, rfl, hsr, rfl, hth, fun hemp => by
            simp [FaissIndex.search, hemp] at hsr⟩
        · rw [if_neg hth] at h
          exact absurd h (by simp)
  · intro hx
    simp [identify_face, hx]
  · intro hemp
    have hs : ∀ v : Vec, idx.search v 1 = [] :=
      fun v => by simp [FaissIndex.search, hemp]
    cases hx : extract img with
    | none => simp [identify_face, hx]
    | some e => simp [identify_face, hx, hs e]
  · intro e m d rest hx hsr hth
    have hthn : ¬ threshold ≤ 1 / (1 + d) := not_le.mpr hth
    rw [one_div] at hthn
    simp [identify_face, hx, hsr, hthn]

/-- C10 witness: with no extractable embedding, identification returns
none. -/
theorem identify_face_spec_witness :
    ((fun _ => (none : Option Vec)) "img" = none) ∧
    identify_face (fun _ => none) SIMILARITY_THRESHOLD idxA "img" = none :=
  ⟨rfl, (identify_face_spec (fun _ => none) SIMILARITY_THRESHOLD idxA "img").2.1 rfl⟩

/-! ### Liveness helper lemmas and fixtures -/

/-- A delta histogram: all mass in the first bin, bins 1..n empty, as
calcHist produces on a single-color frame. -/
noncomputable def deltaHist (n : ℕ) : List ℝ := (1 : ℝ) :: List.replicate n 0

/-- The 3x3 all-black frame: its grayscale Laplacian is identically zero
(texture and sharpness variance 0), its hue and saturation histograms are
delta histograms over 180 and 256 bins, and its FFT magnitude is identically
zero (high-frequency ratio 0/(0+1e-10) = 0). -/
noncomputable def frameBlack : Frame :=
  { rows := 3, cols := 3, textureVariance := 0,
    hHist := deltaHist 179, sHist := deltaHist 255,
    freqRaw := 0, sharpnessVariance := 0 }

lemma logb_eps_pos : 0 < Real.logb 2 (1 + 1e-10) :=
  Real.logb_pos one_lt_two (by norm_num)

lemma entropyOf_deltaHist (n : ℕ) :
    entropyOf (deltaHist n) = -(Real.logb 2 (1 + 1e-10)) := by
  simp [entropyOf, deltaHist, List.map_replicate, List.sum_replicate]

lemma validHist_deltaHist (n : ℕ) : validHist (deltaHist n) := by
  constructor
  · intro p hp
    rw [deltaHist, List.mem_cons] at hp
    rcases hp with rfl | hp
    · norm_num
    · rw [List.mem_replicate] at hp
      exact le_of_eq hp.2.symm
  · simp [deltaHist, List.sum_replicate]

lemma entropyOf_ge (hist : List ℝ) (hv : validHist hist) :
    -(Real.logb 2 (1 + 1e-10)) ≤ entropyOf hist := by
  obtain ⟨hpos, hsum⟩ := hv
  have hle : (hist.map (fun p => p * Real.logb 2 (p + 1e-10))).sum
      ≤ (hist.map (fun p => p * Real.logb 2 (1 + 1e-10))).sum := by
    apply List.sum_le_sum
    intro p hp
    have h0 : 0 ≤ p := hpos p hp
    have hlb : Real.logb 2 (p + 1e-10) ≤ Real.logb 2 (1 + 1e-10) := by
      have h1 : p ≤ 1 := hsum ▸ List.single_le_sum hpos p hp
      rw [Real.logb_le_logb one_lt_two (by positivity) (by norm_num)]
      linarith
    exact mul_le_mul_of_nonneg_left hlb h0
  have hsum2 : (hist.map (fun p => p * Real.logb 2 (1 + 1e-10))).sum
      = Real.logb 2 (1 + 1e-10) := by
    calc (hist.map (fun p => p * Real.logb 2 (1 + 1e-10))).sum
        = (hist.map (fun p => p)).sum * Real.logb 2 (1 + 1e-10) :=
          List.sum_map_mul_right hist (fun p => p) _
      _ = hist.sum * Real.logb 2 (1 + 1e-10) := by simp
      _ = Real.logb 2 (1 + 1e-10) := by rw [hsum, one_mul]
  rw [hsum2] at hle
  unfold entropyOf
  linarith

lemma analyze_texture_bounds (f : Frame) (h : 0 ≤ f.textureVariance) :
    0 ≤ analyze_texture f ∧ analyze_texture f ≤ 1 := by
  unfold analyze_texture
  split
  · norm_num
  · exact ⟨le_min (div_nonneg h (by norm_num)) zero_le_one, min_le_right _ _⟩

lemma analyze_frequency_bounds (f : Frame) :
    0 ≤ analyze_frequency f ∧ analyze_frequency f ≤ 1 :=
  ⟨le_min (le_max_right _ _) zero_le_one, min_le_right _ _⟩

lemma analyze_sharpness_bounds (f : Frame) (h : 0 ≤ f.sharpnessVariance) :
    0 ≤ analyze_sharpness f ∧ analyze_sharpness f ≤ 1 :=
  ⟨le_min (div_nonneg h (by norm_num)) zero_le_one, min_le_right _ _⟩

lemma analyze_color_le_one (f : Frame) : analyze_color_diversity f ≤ 1 := by
  unfold analyze_color_diversity
  have h1 := min_le_right (entropyOf f.hHist / 7) (1 : ℝ)
  have h2 := min_le_right (entropyOf f.sHist / 8) (1 : ℝ)
  linarith

lemma analyze_color_ge (f : Frame) (hh : validHist f.hHist) (hs : validHist f.sHist) :
    -(Real.logb 2 (1 + 1e-10)) ≤ analyze_color_diversity f := by
  have hd := logb_eps_pos
  have h1 := entropyOf_ge f.hHist hh
  have h2 := entropyOf_ge f.sHist hs
  unfold analyze_color_diversity
  have m1 : -(Real.logb 2 (1 + 1e-10)) / 7 ≤ min (entropyOf f.hHist / 7) 1 := by
    apply le_min
    · linarith
    · linarith
  have m2 : -(Real.logb 2 (1 + 1e-10)) / 8 ≤ min (entropyOf f.sHist / 8) 1 := by
    apply le_min
    · linarith
    · linarith
  linarith

/-! ### C8 -/

/-- C8 counterexample: on the 3x3 all-black frame (zero Laplacian variance,
delta hue and saturation histograms, zero high-frequency ratio - all exactly
what the source pipeline computes on a uniform black image) the liveness
score is strictly negative: the color-diversity entropy expression evaluates
to -log2(1+1e-10) < 0 and is not clamped below at 0, so neither that
sub-score nor the total score lies in [0,1]. -/
theorem liveness_score_negative : calculate_liveness_score frameBlack < 0 := by
  have hd := logb_eps_pos
  have ht : analyze_texture frameBlack = 0 := by
    rw [analyze_texture, if_neg (by simp [frameBlack])]
    have h0 : (frameBlack.textureVariance / 5000 : ℝ) = 0 := by
      simp [frameBlack]
    rw [h0]
    exact min_eq_left zero_le_one
  have hfr : analyze_frequency frameBlack = 0 := by
    rw [analyze_frequency]
    have h1 : ((frameBlack.freqRaw - 0.1) / 0.4 : ℝ) = -(1 / 4) := by
      show ((0 - 0.1) / 0.4 : ℝ) = -(1 / 4)
      norm_num
    rw [h1, max_eq_right (by norm_num : (-(1 / 4) : ℝ) ≤ 0)]
    exact min_eq_left zero_le_one
  have hsh : analyze_sharpness frameBlack = 0 := by
    rw [analyze_sharpness]
    have h0 : (frameBlack.sharpnessVariance / 500 : ℝ) = 0 := by
      simp [frameBlack]
    rw [h0]
    exact min_eq_left zero_le_one
  have hcol : analyze_color_diversity frameBlack
      = (-(Real.logb 2 (1 + 1e-10)) / 7 + -(Real.logb 2 (1 + 1e-10)) / 8) / 2 := by
    rw [analyze_color_diversity]
    have hhe : entropyOf frameBlack.hHist = -(Real.logb 2 (1 + 1e-10)) :=
      entropyOf_deltaHist 179
    have hse : entropyOf frameBlack.sHist = -(Real.logb 2 (1 + 1e-10)) :=
      entropyOf_deltaHist 255
    rw [hhe, hse, min_eq_left (by linarith), min_eq_left (by linarith)]
  rw [calculate_liveness_score, ht, hfr, hsh, hcol]
  linarith

/-- C8 (amended): under the raw measurements the source can produce
(nonnegative Laplacian variances, normalized histograms), the texture,
frequency and sharpness sub-scores lie in [0,1] and all four sub-scores are
bounded above by 1, but the color-diversity sub-score has no lower clamp;
the total weighted score (weights 0.30, 0.25, 0.25, 0.20 summing to 1) lies
in [-log2(1+1e-10), 1] rather than [0,1]. -/
theorem liveness_score_bounds (f : Frame)
    (htv : 0 ≤ f.textureVariance) (hsv : 0 ≤ f.sharpnessVariance)
    (hh : validHist f.hHist) (hs : validHist f.sHist) :
    (0 ≤ analyze_texture f ∧ analyze_texture f ≤ 1) ∧
    (0 ≤ analyze_frequency f ∧ analyze_frequency f ≤ 1) ∧
    (0 ≤ analyze_sharpness f ∧ analyze_sharpness f ≤ 1) ∧
    analyze_color_diversity f ≤ 1 ∧
    -(Real.logb 2 (1 + 1e-10)) ≤ calculate_liveness_score f ∧
    calculate_liveness_score f ≤ 1 := by
  obtain ⟨ht0, ht1⟩ := analyze_texture_bounds f htv
  obtain ⟨hf0, hf1⟩ := analyze_frequency_bounds f
  obtain ⟨hs0, hs1⟩ := analyze_sharpness_bounds f hsv
  have hc1 := analyze_color_le_one f
  have hcg := analyze_color_ge f hh hs
  have hd := logb_eps_pos
  refine ⟨⟨ht0, ht1⟩, ⟨hf0, hf1⟩, ⟨hs0, hs1⟩, hc1, ?_, ?_⟩
  · unfold calculate_liveness_score
    linarith
  · unfold calculate_liveness_score
    linarith

/-- C8 witness: the all-black frame satisfies the hypotheses of the bounds
theorem, and the upper bound holds on it. -/
theorem liveness_score_bounds_witness :
    (0 ≤ frameBlack.textureVariance) ∧ (0 ≤ frameBlack.sharpnessVariance) ∧
    validHist frameBlack.hHist ∧ validHist frameBlack.sHist ∧
    calculate_liveness_score frameBlack ≤ 1 :=
  ⟨le_refl 0, le_refl 0, validHist_deltaHist 179, validHist_deltaHist 255,
    (liveness_score_bounds frameBlack (le_refl 0) (le_refl 0)
      (validHist_deltaHist 179) (validHist_deltaHist 255)).2.2.2.2.2⟩

/-! ### C9 -/

/-- A degenerate 1x1 frame (grayscale shape smaller than 3x3). -/
noncomputable def frameSmall : Frame :=
  { rows := 1, cols := 1, textureVariance := 0,
    hHist := deltaHist 179, sHist := deltaHist 255,
    freqRaw := 0, sharpnessVariance := 0 }

/-- C9: a frame whose grayscale shape is smaller than 3x3 gets texture
sub-score exactly 0.5 (neutral); check_liveness is false on an absent (None)
frame and on an empty frame; otherwise check_liveness holds exactly when the
computed score reaches the threshold (whose source default is 0.5). -/
theorem liveness_degenerate_and_threshold (t : ℝ) (f : Frame) :
    ((f.rows < 3 ∨ f.cols < 3) → analyze_texture f = 0.5) ∧
    ¬ check_liveness none t ∧
    (f.size = 0 → ¬ check_liveness (some f) t) ∧
    (f.size ≠ 0 → (check_liveness (some f) t ↔ t ≤ calculate_liveness_score f)) := by
  refine ⟨?_, ?_, ?_, ?_⟩
  · intro h
    rw [analyze_texture, if_pos h]
  · intro h
    exact h
  · intro hsz h
    simp only [check_liveness] at h
    rw [if_pos hsz] at h
    exact h
  · intro hsz
    simp only [check_liveness]
    rw [if_neg hsz]

/-- C9 witness: the 1x1 frame is smaller than 3x3 and scores a neutral 0.5
texture term, and check_liveness is false on the absent frame at the default
threshold. -/
theorem liveness_degenerate_witness :
    (frameSmall.rows < 3 ∨ frameSmall.cols < 3) ∧
    analyze_texture frameSmall = 0.5 ∧
    ¬ check_liveness none (1 / 2 : ℝ) :=
  ⟨Or.inl (by norm_num [frameSmall]),
    (liveness_degenerate_and_threshold (1 / 2) frameSmall).1
      (Or.inl (by norm_num [frameSmall])),
    (liveness_degenerate_and_threshold (1 / 2) frameSmall).2.1⟩
